import Mathlib

/-!
# Shallow embedding of the `halo_2_benches` scalar-multiplication gadget

This file embeds the constraint-system gadget of `src/gadgets/scalar_mul.rs`
and the two benchmark circuits (`benches/nn_mul.rs`, `benches/scalar_mul.rs`)
in Lean 4, and proves the frozen claims about them.

The gadget code itself (configure, load_private, load_constant, mul,
expose_public) is translated from the source.  The halo2 backend it calls
(`ConstraintSystem`, `Layouter`, `Region`, the mock verifier) is an external
library whose code is not part of the repository; those parts are modelled
from the specification, as noted on each definition.
-/

namespace Halo2Benches

/-- A column of the circuit grid: advice (private witness), instance
(public input) or fixed (constants), each with the index the constraint
system allocated for it. -/
inductive Col where
  | advice : Nat → Col
  | inst : Nat → Col
  | fixedCol : Nat → Col
deriving DecidableEq

/-- A cell: a column together with an absolute row index. -/
structure Cell where
  col : Col
  row : Nat
deriving DecidableEq

/-- Polynomial expressions over queried column values, as built by the
closure given to `create_gate`: constants, an advice column queried at a
row offset (rotation), a selector queried at the current row, and
sums / differences / products.  Only the constructors this repository's
single gate uses are populated with queries. -/
inductive Expr (F : Type) where
  | constE : F → Expr F
  | advQ : Nat → Nat → Expr F
  | selQ : Nat → Expr F
  | addE : Expr F → Expr F → Expr F
  | subE : Expr F → Expr F → Expr F
  | mulE : Expr F → Expr F → Expr F

/-- `Rotation::cur()`: the current row.  (The gate in this repository only
uses non-negative rotations, so rotations are embedded as `Nat`.) -/
def Rotation.cur : Nat := 0

/-- `Rotation::next()`: the next row. -/
def Rotation.next : Nat := 1

/-- Evaluate an expression at absolute row `r`, given the advice grid
`adv` (column index, absolute row) and the selector assignment `sel`
(selector index, absolute row; `1` where enabled, `0` elsewhere). -/
def Expr.eval {F : Type} [Ring F] (adv : Nat → Nat → F) (sel : Nat → Nat → F)
    (r : Nat) : Expr F → F
  | Expr.constE c => c
  | Expr.advQ i rot => adv i (r + rot)
  | Expr.selQ s => sel s r
  | Expr.addE e1 e2 => e1.eval adv sel r + e2.eval adv sel r
  | Expr.subE e1 e2 => e1.eval adv sel r - e2.eval adv sel r
  | Expr.mulE e1 e2 => e1.eval adv sel r * e2.eval adv sel r

/-- Modelled from the spec: the configuration-phase state of the backend's
`ConstraintSystem` (its code is not in this repository): counters for the
declared columns and selectors, the set of equality-enabled columns, the
fixed columns enabled for constant loading, and the registered gates. -/
structure ConstraintSystem (F : Type) where
  num_advice : Nat
  num_inst : Nat
  num_fixed : Nat
  num_selectors : Nat
  eq_cols : List Col
  const_cols : List Col
  gates : List (String × List (Expr F))

/-- Modelled from the spec: `ConstraintSystem::advice_column` declares a
fresh advice column and returns its identifier. -/
def adviceColumn {F : Type} (cs : ConstraintSystem F) : Nat × ConstraintSystem F :=
  (cs.num_advice, { cs with num_advice := cs.num_advice + 1 })

/-- Modelled from the spec: `ConstraintSystem::instance_column` declares a
fresh instance column and returns its identifier. -/
def instanceColumn {F : Type} (cs : ConstraintSystem F) : Nat × ConstraintSystem F :=
  (cs.num_inst, { cs with num_inst := cs.num_inst + 1 })

/-- Modelled from the spec: `ConstraintSystem::fixed_column` declares a
fresh fixed column and returns its identifier. -/
def fixedColumn {F : Type} (cs : ConstraintSystem F) : Nat × ConstraintSystem F :=
  (cs.num_fixed, { cs with num_fixed := cs.num_fixed + 1 })

/-- Modelled from the spec: `ConstraintSystem::selector` registers a fresh
selector and returns its identifier. -/
def selector {F : Type} (cs : ConstraintSystem F) : Nat × ConstraintSystem F :=
  (cs.num_selectors, { cs with num_selectors := cs.num_selectors + 1 })

/-- Modelled from the spec: `ConstraintSystem::enable_equality` flags a
column as usable in copy constraints; flagging an already-flagged column
is a no-op, never an error. -/
def enableEquality {F : Type} (cs : ConstraintSystem F) (c : Col) : ConstraintSystem F :=
  if c ∈ cs.eq_cols then cs else { cs with eq_cols := cs.eq_cols ++ [c] }

/-- Modelled from the spec: `ConstraintSystem::enable_constant` registers a
fixed column as the target for constant loading, and enables equality on it
so that constant provenance can be proved by copy constraint. -/
def enableConstant {F : Type} (cs : ConstraintSystem F) (c : Col) : ConstraintSystem F :=
  let cs1 := if c ∈ cs.const_cols then cs else { cs with const_cols := cs.const_cols ++ [c] }
  enableEquality cs1 c

/-- Modelled from the spec: `ConstraintSystem::create_gate` registers a
named gate: a list of polynomial expressions, each constrained to zero at
every row. -/
def createGate {F : Type} (cs : ConstraintSystem F) (name : String)
    (polys : List (Expr F)) : ConstraintSystem F :=
  { cs with gates := cs.gates ++ [(name, polys)] }

/-- The list of polynomial expressions the `"mul"` gate's builder closure
returns in `ScalarMulConfig::configure`: the single expression
`s_mul * (lhs * rhs - out)` with `lhs` advice column `advice0` at the
current row, `rhs` advice column `advice1` at the current row, and `out`
advice column `advice0` at the next row. -/
def mulGatePolys (F : Type) (advice0 advice1 s_mul : Nat) : List (Expr F) :=
  let lhs := Expr.advQ advice0 Rotation.cur
  let rhs := Expr.advQ advice1 Rotation.cur
  let out := Expr.advQ advice0 Rotation.next
  let s := Expr.selQ s_mul
  [Expr.mulE s (Expr.subE (Expr.mulE lhs rhs) out)]

/-- `ScalarMulConfig`: the two advice columns, the instance column and the
multiplication selector, as resolved by `configure`.  (The source stores
the two advice columns as a 2-array; they are the two fields here.) -/
structure ScalarMulConfig where
  advice0 : Nat
  advice1 : Nat
  instCol : Nat
  s_mul : Nat

/-- `ScalarMulConfig::configure` (src/gadgets/scalar_mul.rs): enables
equality on the instance column, enables constants on the fixed column,
enables equality on both advice columns, allocates the selector, registers
the `"mul"` gate, and returns the configuration. -/
def ScalarMulConfig.configure (F : Type) (cs : ConstraintSystem F)
    (advice0 advice1 : Nat) (instCol : Nat) (constant : Nat) :
    ScalarMulConfig × ConstraintSystem F :=
  let cs1 := enableEquality cs (Col.inst instCol)
  let cs2 := enableConstant cs1 (Col.fixedCol constant)
  let cs3 := enableEquality cs2 (Col.advice advice0)
  let cs4 := enableEquality cs3 (Col.advice advice1)
  let p := selector cs4
  let cs5 := createGate p.2 "mul" (mulGatePolys F advice0 advice1 p.1)
  (⟨advice0, advice1, instCol, p.1⟩, cs5)

/-- The configuration produced by `configure`. -/
def configureCfg (F : Type) (cs : ConstraintSystem F)
    (advice0 advice1 instCol constant : Nat) : ScalarMulConfig :=
  (ScalarMulConfig.configure F cs advice0 advice1 instCol constant).1

/-- The constraint-system state after `configure`. -/
def configureCS (F : Type) (cs : ConstraintSystem F)
    (advice0 advice1 instCol constant : Nat) : ConstraintSystem F :=
  (ScalarMulConfig.configure F cs advice0 advice1 instCol constant).2

/-- `Number<F>`: a handle wrapping an assigned cell together with its
(possibly unknown) value, mirroring `AssignedCell<F, F>`.  An unknown
value (`Value::unknown()`) is `none`. -/
structure Number (F : Type) where
  cell : Cell
  val : Option F

/-- Multiplication of possibly-unknown values (`Value` multiplication):
any unknown operand yields unknown, otherwise the concrete product. -/
def vmul {F : Type} [Mul F] : Option F → Option F → Option F
  | some x, some y => some (x * y)
  | _, _ => none

/-- The errors the synthesis-phase primitives can surface: using a column
that is not equality-enabled in a copy constraint, and requesting a
constant assignment when no fixed column was enabled for constants. -/
inductive SynthError where
  | colNotEqEnabled : Col → SynthError
  | noConstantsColumn : SynthError

/-- Modelled from the spec: the synthesis-phase state the backend's
layouter and regions maintain (their code is not in this repository):
the equality-enabled and constant columns resolved at configuration,
the next free row (the allocator hands regions out as disjoint stacked
row spans), the assigned cells in order, the rows at which each selector
is enabled, the copy constraints, the `(start, height)` span of every
region opened so far, and the number of constants assigned to the
constants column. -/
structure SynthState (F : Type) where
  eq_cols : List Col
  const_cols : List Col
  next_row : Nat
  cells : List (Cell × Option F)
  sel_on : List (Nat × Nat)
  copies : List (Cell × Cell)
  regions : List (Nat × Nat)
  n_consts : Nat

/-- The synthesis state at the start of synthesis, for a configured
constraint system. -/
def initSynth {F : Type} (cs : ConstraintSystem F) : SynthState F :=
  ⟨cs.eq_cols, cs.const_cols, 0, [], [], [], [], 0⟩

/-- Modelled from the spec: `Region::assign_advice` places a
possibly-unknown value at the given advice column and region-relative row
(`start` is the region's first absolute row) and returns the new cell. -/
def assignAdvice {F : Type} (st : SynthState F) (col start off : Nat)
    (v : Option F) : Cell × SynthState F :=
  let c : Cell := ⟨Col.advice col, start + off⟩
  (c, { st with cells := st.cells ++ [(c, v)] })

/-- Modelled from the spec: `Selector::enable` activates the selector at
the given region-relative row. -/
def enableSelector {F : Type} (st : SynthState F) (s start off : Nat) :
    SynthState F :=
  { st with sel_on := st.sel_on ++ [(s, start + off)] }

/-- Modelled from the spec: `AssignedCell::copy_advice` assigns the source
cell's value to a new cell at the given advice column and region-relative
row and records a copy constraint between the two; it fails when either
the source cell's column or the target column is not equality-enabled. -/
def copyAdvice {F : Type} (st : SynthState F) (src : Number F)
    (col start off : Nat) : Except SynthError (Number F × SynthState F) :=
  let dst : Cell := ⟨Col.advice col, start + off⟩
  if src.cell.col ∈ st.eq_cols then
    if Col.advice col ∈ st.eq_cols then
      Except.ok (⟨dst, src.val⟩,
        { st with cells := st.cells ++ [(dst, src.val)],
                  copies := st.copies ++ [(src.cell, dst)] })
    else Except.error (SynthError.colNotEqEnabled (Col.advice col))
  else Except.error (SynthError.colNotEqEnabled src.cell.col)

/-- Modelled from the spec: `Region::assign_advice_from_constant` assigns
the constant to a new advice cell and additionally records a copy
constraint between that cell and the constants column's cell holding the
constant; it fails when no fixed column was enabled for constants or when
either column involved is not equality-enabled. -/
def assignAdviceFromConstant {F : Type} (st : SynthState F)
    (col start off : Nat) (c : F) : Except SynthError (Cell × SynthState F) :=
  match st.const_cols with
  | [] => Except.error SynthError.noConstantsColumn
  | fcol :: _ =>
    if fcol ∈ st.eq_cols then
      if Col.advice col ∈ st.eq_cols then
        let fcell : Cell := ⟨fcol, st.n_consts⟩
        let acell : Cell := ⟨Col.advice col, start + off⟩
        Except.ok (acell,
          { st with cells := st.cells ++ [(fcell, some c), (acell, some c)],
                    copies := st.copies ++ [(fcell, acell)],
                    n_consts := st.n_consts + 1 })
      else Except.error (SynthError.colNotEqEnabled (Col.advice col))
    else Except.error (SynthError.colNotEqEnabled fcol)

/-- Modelled from the spec: `Layouter::constrain_instance` records a copy
constraint between an assigned cell and the instance column's cell at the
given absolute row; it fails when either column is not equality-enabled. -/
def constrainInstance {F : Type} (st : SynthState F) (c : Cell)
    (icol row : Nat) : Except SynthError (SynthState F) :=
  if c.col ∈ st.eq_cols then
    if Col.inst icol ∈ st.eq_cols then
      Except.ok { st with copies := st.copies ++ [(c, ⟨Col.inst icol, row⟩)] }
    else Except.error (SynthError.colNotEqEnabled (Col.inst icol))
  else Except.error (SynthError.colNotEqEnabled c.col)

/-- `ScalarMulChip::load_private` (src/gadgets/scalar_mul.rs): opens a
fresh one-row region, assigns the value into the first advice column at
region row 0, and returns a `Number` wrapping the new cell. -/
def ScalarMulChip.loadPrivate {F : Type} (cfg : ScalarMulConfig)
    (value : Option F) (st : SynthState F) :
    Except SynthError (Number F × SynthState F) :=
  let start := st.next_row
  let p := assignAdvice st cfg.advice0 start 0 value
  Except.ok (⟨p.1, value⟩,
    { p.2 with next_row := start + 1, regions := p.2.regions ++ [(start, 1)] })

/-- `ScalarMulChip::load_constant` (src/gadgets/scalar_mul.rs): opens a
fresh one-row region and assigns the constant into the first advice column
at region row 0 via `assign_advice_from_constant`. -/
def ScalarMulChip.loadConstant {F : Type} (cfg : ScalarMulConfig) (c : F)
    (st : SynthState F) : Except SynthError (Number F × SynthState F) :=
  let start := st.next_row
  match assignAdviceFromConstant st cfg.advice0 start 0 c with
  | Except.error e => Except.error e
  | Except.ok (cell, st1) =>
    Except.ok (⟨cell, some c⟩,
      { st1 with next_row := start + 1, regions := st1.regions ++ [(start, 1)] })

/-- `ScalarMulChip::mul` (src/gadgets/scalar_mul.rs): opens a fresh
two-row region, enables the multiplication selector at region row 0,
copies `a` into advice column 0 and `b` into advice column 1 at region
row 0, assigns the product of the two values to advice column 0 at region
row 1, and returns a `Number` wrapping the output cell. -/
def ScalarMulChip.mul {F : Type} [Mul F] (cfg : ScalarMulConfig)
    (a b : Number F) (st : SynthState F) :
    Except SynthError (Number F × SynthState F) :=
  let start := st.next_row
  let st1 := enableSelector st cfg.s_mul start 0
  match copyAdvice st1 a cfg.advice0 start 0 with
  | Except.error e => Except.error e
  | Except.ok (_, st2) =>
    match copyAdvice st2 b cfg.advice1 start 0 with
    | Except.error e => Except.error e
    | Except.ok (_, st3) =>
      let value := vmul a.val b.val
      let p := assignAdvice st3 cfg.advice0 start 1 value
      Except.ok (⟨p.1, value⟩,
        { p.2 with next_row := start + 2, regions := p.2.regions ++ [(start, 2)] })

/-- `ScalarMulChip::expose_public` (src/gadgets/scalar_mul.rs): records a
copy constraint between the number's cell and the instance column's cell
at the given absolute row. -/
def ScalarMulChip.exposePublic {F : Type} (cfg : ScalarMulConfig)
    (num : Number F) (row : Nat) (st : SynthState F) :
    Except SynthError (Unit × SynthState F) :=
  match constrainInstance st num.cell cfg.instCol row with
  | Except.error e => Except.error e
  | Except.ok st1 => Except.ok ((), st1)

/-- The `configure` method shared verbatim by both benchmark circuits
(benches/nn_mul.rs and benches/scalar_mul.rs): declare two advice columns,
one instance column and one fixed column, then hand them to
`ScalarMulConfig::configure`. -/
def benchConfigure (F : Type) : ScalarMulConfig × ConstraintSystem F :=
  let cs0 : ConstraintSystem F := ⟨0, 0, 0, 0, [], [], []⟩
  let p0 := adviceColumn cs0
  let p1 := adviceColumn p0.2
  let p2 := instanceColumn p1.2
  let p3 := fixedColumn p2.2
  ScalarMulConfig.configure F p3.2 p0.1 p1.1 p2.1 p3.1

/-- `NNMulCircuit::synthesize` (benches/nn_mul.rs): load `a`, load `b`,
then multiply — the source passes `a.clone(), a` to `mul`, so the product
taken is `a * a` (the loaded `b` is never used) — and expose the result at
instance row 0. -/
def NNMulCircuit.synthesize {F : Type} [Mul F] (cfg : ScalarMulConfig)
    (av bv : Option F) (st : SynthState F) :
    Except SynthError (SynthState F) := do
  let (a, st) ← ScalarMulChip.loadPrivate cfg av st
  let (_b, st) ← ScalarMulChip.loadPrivate cfg bv st
  let (c, st) ← ScalarMulChip.mul cfg a a st
  let (_u, st) ← ScalarMulChip.exposePublic cfg c 0 st
  return st

/-- `ScalarMulCircuit::synthesize` (benches/scalar_mul.rs): load `a`,
load `b`, compute `aa = a*a`, `bb = b*b`, `c = aa*bb`, and expose `c` at
instance row 0. -/
def ScalarMulCircuit.synthesize {F : Type} [Mul F] (cfg : ScalarMulConfig)
    (av bv : Option F) (st : SynthState F) :
    Except SynthError (SynthState F) := do
  let (a, st) ← ScalarMulChip.loadPrivate cfg av st
  let (b, st) ← ScalarMulChip.loadPrivate cfg bv st
  let (aa, st) ← ScalarMulChip.mul cfg a a st
  let (bb, st) ← ScalarMulChip.mul cfg b b st
  let (c, st) ← ScalarMulChip.mul cfg aa bb st
  let (_u, st) ← ScalarMulChip.exposePublic cfg c 0 st
  return st

/-- Configure and synthesize the `nn_mul` benchmark circuit with the given
private inputs: the configured constraint system and the synthesis
outcome. -/
def nnRun (F : Type) [Mul F] (av bv : Option F) :
    ConstraintSystem F × Except SynthError (SynthState F) :=
  let p := benchConfigure F
  (p.2, NNMulCircuit.synthesize p.1 av bv (initSynth p.2))

/-- Configure and synthesize the chained `scalar_mul` benchmark circuit
with the given private inputs. -/
def scalarRun (F : Type) [Mul F] (av bv : Option F) :
    ConstraintSystem F × Except SynthError (SynthState F) :=
  let p := benchConfigure F
  (p.2, ScalarMulCircuit.synthesize p.1 av bv (initSynth p.2))

/-- The constraint system both benchmark circuits configure: two advice
columns, one instance column, one fixed column, one selector, equality
enabled on the instance, fixed and both advice columns, and the single
`"mul"` gate. -/
def benchCS (F : Type) : ConstraintSystem F :=
  ⟨2, 1, 1, 1,
   [Col.inst 0, Col.fixedCol 0, Col.advice 0, Col.advice 1],
   [Col.fixedCol 0],
   [("mul", mulGatePolys F 0 1 0)]⟩

/-- The synthesis state the `nn_mul` circuit reaches: `a` at row 0, `b` at
row 1, one multiplication region at rows 2–3 multiplying `a` by itself,
and the output copy-constrained to instance row 0. -/
def nnFinalState (F : Type) [Mul F] (av bv : Option F) : SynthState F :=
  ⟨[Col.inst 0, Col.fixedCol 0, Col.advice 0, Col.advice 1],
   [Col.fixedCol 0],
   4,
   [(⟨Col.advice 0, 0⟩, av), (⟨Col.advice 0, 1⟩, bv),
    (⟨Col.advice 0, 2⟩, av), (⟨Col.advice 1, 2⟩, av),
    (⟨Col.advice 0, 3⟩, vmul av av)],
   [(0, 2)],
   [(⟨Col.advice 0, 0⟩, ⟨Col.advice 0, 2⟩),
    (⟨Col.advice 0, 0⟩, ⟨Col.advice 1, 2⟩),
    (⟨Col.advice 0, 3⟩, ⟨Col.inst 0, 0⟩)],
   [(0, 1), (1, 1), (2, 2)],
   0⟩

/-- The synthesis state the chained `scalar_mul` circuit reaches: loads at
rows 0 and 1, multiplication regions at rows 2–3 (`a*a`), 4–5 (`b*b`) and
6–7 (`aa*bb`), and the final output copy-constrained to instance row 0. -/
def scalarFinalState (F : Type) [Mul F] (av bv : Option F) : SynthState F :=
  ⟨[Col.inst 0, Col.fixedCol 0, Col.advice 0, Col.advice 1],
   [Col.fixedCol 0],
   8,
   [(⟨Col.advice 0, 0⟩, av), (⟨Col.advice 0, 1⟩, bv),
    (⟨Col.advice 0, 2⟩, av), (⟨Col.advice 1, 2⟩, av),
    (⟨Col.advice 0, 3⟩, vmul av av),
    (⟨Col.advice 0, 4⟩, bv), (⟨Col.advice 1, 4⟩, bv),
    (⟨Col.advice 0, 5⟩, vmul bv bv),
    (⟨Col.advice 0, 6⟩, vmul av av), (⟨Col.advice 1, 6⟩, vmul bv bv),
    (⟨Col.advice 0, 7⟩, vmul (vmul av av) (vmul bv bv))],
   [(0, 2), (0, 4), (0, 6)],
   [(⟨Col.advice 0, 0⟩, ⟨Col.advice 0, 2⟩),
    (⟨Col.advice 0, 0⟩, ⟨Col.advice 1, 2⟩),
    (⟨Col.advice 0, 1⟩, ⟨Col.advice 0, 4⟩),
    (⟨Col.advice 0, 1⟩, ⟨Col.advice 1, 4⟩),
    (⟨Col.advice 0, 3⟩, ⟨Col.advice 0, 6⟩),
    (⟨Col.advice 0, 5⟩, ⟨Col.advice 1, 6⟩),
    (⟨Col.advice 0, 7⟩, ⟨Col.inst 0, 0⟩)],
   [(0, 1), (1, 1), (2, 2), (4, 2), (6, 2)],
   0⟩

/-- The value assigned to a cell: `none` when the cell was never assigned
or holds an unknown value. -/
def valOf {F : Type} (st : SynthState F) (c : Cell) : Option F :=
  match st.cells.find? (fun p => decide (p.1 = c)) with
  | some p => p.2
  | none => none

/-- The advice grid the assigned witness determines (unassigned or unknown
cells read as 0, which no gate of this circuit ever consults). -/
def advGrid {F : Type} [Zero F] (st : SynthState F) : Nat → Nat → F :=
  fun i r => (valOf st ⟨Col.advice i, r⟩).getD 0

/-- The selector assignment: 1 at rows where the selector was enabled,
0 elsewhere. -/
def selGrid {F : Type} [Zero F] [One F] (st : SynthState F) : Nat → Nat → F :=
  fun s r => if (s, r) ∈ st.sel_on then 1 else 0

/-- The value a copy constraint compares for a cell: instance cells read
the public input at their row, other cells read the assigned witness. -/
def cellVal {F : Type} (st : SynthState F) (pub : Nat → F) (c : Cell) :
    Option F :=
  match c.col with
  | Col.inst _ => some (pub c.row)
  | _ => valOf st c

/-- Modelled from the spec: the external verifier's acceptance condition
on the synthesized witness (the mock prover's check; its code is not in
this repository): every registered gate polynomial evaluates to zero at
every row, and every copy constraint relates cells of equal value, with
instance cells reading the supplied public input. -/
def accepts {F : Type} [Ring F] (cs : ConstraintSystem F) (st : SynthState F)
    (pub : Nat → F) : Prop :=
  (∀ r : Nat, ∀ g ∈ cs.gates, ∀ e ∈ g.2,
      Expr.eval (advGrid st) (selGrid st) r e = 0) ∧
  ∀ p ∈ st.copies, cellVal st pub p.1 = cellVal st pub p.2

/-- Whether a column is the instance column. -/
def Col.isInst : Col → Bool
  | Col.inst _ => true
  | _ => false

/-- The copy constraints of a synthesis state whose target is an instance
cell: the bindings of internal witnesses to public inputs. -/
def instBindings {F : Type} (st : SynthState F) : List (Cell × Cell) :=
  st.copies.filter (fun p => (p.2.col).isInst)

/-- The shape of a synthesis state: everything except the witness values —
which cells are assigned (in order), the selector enablements, the copy
constraints, the region spans and the next free row. -/
def SynthState.shape {F : Type} (st : SynthState F) :
    List Cell × List (Nat × Nat) × List (Cell × Cell) × List (Nat × Nat) × Nat :=
  (st.cells.map Prod.fst, st.sel_on, st.copies, st.regions, st.next_row)

/-- Sample configuration for concrete witnesses: the one `benchConfigure`
produces. -/
def sampleCfg : ScalarMulConfig := ⟨0, 1, 0, 0⟩

/-- Sample synthesis state over `ZMod 7` for concrete witnesses. -/
def sampleSt : SynthState (ZMod 7) := initSynth (benchCS (ZMod 7))

/-- A sample loaded number: the value 2 at advice column 0, row 0. -/
def sampleA : Number (ZMod 7) := ⟨⟨Col.advice 0, 0⟩, some 2⟩

/-- A sample loaded number: the value 3 at advice column 0, row 1. -/
def sampleB : Number (ZMod 7) := ⟨⟨Col.advice 0, 1⟩, some 3⟩

/-- A sample number with unknown value at advice column 0, row 0. -/
def sampleU : Number (ZMod 7) := ⟨⟨Col.advice 0, 0⟩, none⟩

/-! ## Helper lemmas about the configuration phase -/

theorem enableEquality_gates {F : Type} (cs : ConstraintSystem F) (c : Col) :
    (enableEquality cs c).gates = cs.gates := by
  unfold enableEquality; split <;> rfl

theorem enableEquality_num_selectors {F : Type} (cs : ConstraintSystem F) (c : Col) :
    (enableEquality cs c).num_selectors = cs.num_selectors := by
  unfold enableEquality; split <;> rfl

theorem enableEquality_const_cols {F : Type} (cs : ConstraintSystem F) (c : Col) :
    (enableEquality cs c).const_cols = cs.const_cols := by
  unfold enableEquality; split <;> rfl

theorem enableConstant_gates {F : Type} (cs : ConstraintSystem F) (c : Col) :
    (enableConstant cs c).gates = cs.gates := by
  unfold enableConstant
  rw [enableEquality_gates]
  split <;> rfl

theorem enableConstant_num_selectors {F : Type} (cs : ConstraintSystem F) (c : Col) :
    (enableConstant cs c).num_selectors = cs.num_selectors := by
  unfold enableConstant
  rw [enableEquality_num_selectors]
  split <;> rfl

theorem mem_enableEquality_self {F : Type} (cs : ConstraintSystem F) (c : Col) :
    c ∈ (enableEquality cs c).eq_cols := by
  unfold enableEquality
  split
  · assumption
  · simp

theorem mem_enableEquality_of_mem {F : Type} {cs : ConstraintSystem F} {x : Col}
    (c : Col) (h : x ∈ cs.eq_cols) : x ∈ (enableEquality cs c).eq_cols := by
  unfold enableEquality
  split
  · exact h
  · simp [h]

theorem mem_enableConstant_eq_self {F : Type} (cs : ConstraintSystem F) (c : Col) :
    c ∈ (enableConstant cs c).eq_cols :=
  mem_enableEquality_self _ c

theorem mem_enableConstant_eq_of_mem {F : Type} {cs : ConstraintSystem F} {x : Col}
    (c : Col) (h : x ∈ cs.eq_cols) : x ∈ (enableConstant cs c).eq_cols := by
  unfold enableConstant
  refine mem_enableEquality_of_mem c ?_
  split <;> simpa

theorem mem_enableConstant_const_self {F : Type} (cs : ConstraintSystem F) (c : Col) :
    c ∈ (enableConstant cs c).const_cols := by
  unfold enableConstant
  rw [enableEquality_const_cols]
  split
  · assumption
  · simp

/-- What `configure` does to the constraint system, stated through the
intermediate states of the source's statement sequence. -/
theorem configure_unfold {F : Type} (cs : ConstraintSystem F)
    (a0 a1 i k : Nat) :
    ScalarMulConfig.configure F cs a0 a1 i k =
      (⟨a0, a1, i,
        (enableEquality (enableEquality (enableConstant (enableEquality cs
          (Col.inst i)) (Col.fixedCol k)) (Col.advice a0)) (Col.advice a1)).num_selectors⟩,
       createGate (selector (enableEquality (enableEquality (enableConstant
          (enableEquality cs (Col.inst i)) (Col.fixedCol k)) (Col.advice a0))
          (Col.advice a1))).2 "mul"
         (mulGatePolys F a0 a1 (enableEquality (enableEquality (enableConstant
          (enableEquality cs (Col.inst i)) (Col.fixedCol k)) (Col.advice a0))
          (Col.advice a1)).num_selectors)) := rfl

theorem configureCfg_s_mul {F : Type} (cs : ConstraintSystem F) (a0 a1 i k : Nat) :
    (configureCfg F cs a0 a1 i k).s_mul = cs.num_selectors := by
  unfold configureCfg
  rw [configure_unfold]
  simp [enableEquality_num_selectors, enableConstant_num_selectors]

theorem configureCS_gates {F : Type} (cs : ConstraintSystem F) (a0 a1 i k : Nat) :
    (configureCS F cs a0 a1 i k).gates =
      cs.gates ++ [("mul", mulGatePolys F a0 a1 cs.num_selectors)] := by
  unfold configureCS
  rw [configure_unfold]
  simp [createGate, selector, enableEquality_gates, enableConstant_gates,
    enableEquality_num_selectors, enableConstant_num_selectors]

theorem selector_snd_eq_cols {F : Type} (cs : ConstraintSystem F) :
    ((selector cs).2).eq_cols = cs.eq_cols := rfl

theorem selector_snd_const_cols {F : Type} (cs : ConstraintSystem F) :
    ((selector cs).2).const_cols = cs.const_cols := rfl

theorem createGate_eq_cols {F : Type} (cs : ConstraintSystem F) (n : String)
    (ps : List (Expr F)) : (createGate cs n ps).eq_cols = cs.eq_cols := rfl

theorem createGate_const_cols {F : Type} (cs : ConstraintSystem F) (n : String)
    (ps : List (Expr F)) : (createGate cs n ps).const_cols = cs.const_cols := rfl

theorem configureCS_eq_cols {F : Type} (cs : ConstraintSystem F) (a0 a1 i k : Nat) :
    (configureCS F cs a0 a1 i k).eq_cols =
      (enableEquality (enableEquality (enableConstant (enableEquality cs
        (Col.inst i)) (Col.fixedCol k)) (Col.advice a0)) (Col.advice a1)).eq_cols := by
  unfold configureCS
  rw [configure_unfold]
  rw [createGate_eq_cols, selector_snd_eq_cols]

theorem configureCS_const_cols {F : Type} (cs : ConstraintSystem F) (a0 a1 i k : Nat) :
    (configureCS F cs a0 a1 i k).const_cols =
      (enableConstant (enableEquality cs (Col.inst i)) (Col.fixedCol k)).const_cols := by
  unfold configureCS
  rw [configure_unfold]
  rw [createGate_const_cols, selector_snd_const_cols,
    enableEquality_const_cols, enableEquality_const_cols]

theorem mem_inst_configureCS {F : Type} (cs : ConstraintSystem F) (a0 a1 i k : Nat) :
    Col.inst i ∈ (configureCS F cs a0 a1 i k).eq_cols := by
  rw [configureCS_eq_cols]
  exact mem_enableEquality_of_mem _ (mem_enableEquality_of_mem _
    (mem_enableConstant_eq_of_mem _ (mem_enableEquality_self cs _)))

theorem mem_advice0_configureCS {F : Type} (cs : ConstraintSystem F) (a0 a1 i k : Nat) :
    Col.advice a0 ∈ (configureCS F cs a0 a1 i k).eq_cols := by
  rw [configureCS_eq_cols]
  exact mem_enableEquality_of_mem _ (mem_enableEquality_self _ _)

theorem mem_advice1_configureCS {F : Type} (cs : ConstraintSystem F) (a0 a1 i k : Nat) :
    Col.advice a1 ∈ (configureCS F cs a0 a1 i k).eq_cols := by
  rw [configureCS_eq_cols]
  exact mem_enableEquality_self _ _

theorem mem_fixed_eq_configureCS {F : Type} (cs : ConstraintSystem F) (a0 a1 i k : Nat) :
    Col.fixedCol k ∈ (configureCS F cs a0 a1 i k).eq_cols := by
  rw [configureCS_eq_cols]
  exact mem_enableEquality_of_mem _ (mem_enableEquality_of_mem _
    (mem_enableConstant_eq_self _ _))

theorem mem_fixed_const_configureCS {F : Type} (cs : ConstraintSystem F) (a0 a1 i k : Nat) :
    Col.fixedCol k ∈ (configureCS F cs a0 a1 i k).const_cols := by
  rw [configureCS_const_cols]
  exact mem_enableConstant_const_self _ _

/-! ## Helper lemmas about the synthesis phase -/

theorem loadPrivate_eq {F : Type} (cfg : ScalarMulConfig) (v : Option F)
    (st : SynthState F) :
    ScalarMulChip.loadPrivate cfg v st = Except.ok
      (⟨⟨Col.advice cfg.advice0, st.next_row⟩, v⟩,
       { st with cells := st.cells ++ [(⟨Col.advice cfg.advice0, st.next_row⟩, v)],
                 next_row := st.next_row + 1,
                 regions := st.regions ++ [(st.next_row, 1)] }) := by
  simp [ScalarMulChip.loadPrivate, assignAdvice]

theorem mul_ok {F : Type} [Mul F] (cfg : ScalarMulConfig) (a b : Number F)
    (st : SynthState F)
    (ha : a.cell.col ∈ st.eq_cols) (h0 : Col.advice cfg.advice0 ∈ st.eq_cols)
    (hb : b.cell.col ∈ st.eq_cols) (h1 : Col.advice cfg.advice1 ∈ st.eq_cols) :
    ScalarMulChip.mul cfg a b st = Except.ok
      (⟨⟨Col.advice cfg.advice0, st.next_row + 1⟩, vmul a.val b.val⟩,
       { st with
         sel_on := st.sel_on ++ [(cfg.s_mul, st.next_row)],
         cells := st.cells ++
           [(⟨Col.advice cfg.advice0, st.next_row⟩, a.val),
            (⟨Col.advice cfg.advice1, st.next_row⟩, b.val),
            (⟨Col.advice cfg.advice0, st.next_row + 1⟩, vmul a.val b.val)],
         copies := st.copies ++
           [(a.cell, ⟨Col.advice cfg.advice0, st.next_row⟩),
            (b.cell, ⟨Col.advice cfg.advice1, st.next_row⟩)],
         regions := st.regions ++ [(st.next_row, 2)],
         next_row := st.next_row + 2 }) := by
  simp [ScalarMulChip.mul, enableSelector, copyAdvice, assignAdvice, ha, h0, hb, h1]

theorem exposePublic_ok {F : Type} (cfg : ScalarMulConfig) (num : Number F)
    (row : Nat) (st : SynthState F)
    (hn : num.cell.col ∈ st.eq_cols) (hi : Col.inst cfg.instCol ∈ st.eq_cols) :
    ScalarMulChip.exposePublic cfg num row st = Except.ok
      ((), { st with copies := st.copies ++ [(num.cell, ⟨Col.inst cfg.instCol, row⟩)] }) := by
  simp [ScalarMulChip.exposePublic, constrainInstance, hn, hi]

theorem exposePublic_not_ok {F : Type} (cfg : ScalarMulConfig) (num : Number F)
    (row : Nat) (st : SynthState F) (hi : Col.inst cfg.instCol ∉ st.eq_cols) :
    ∀ out, ScalarMulChip.exposePublic cfg num row st ≠ Except.ok out := by
  intro out h
  unfold ScalarMulChip.exposePublic constrainInstance at h
  split_ifs at h

theorem loadConstant_ok {F : Type} (cfg : ScalarMulConfig) (c : F)
    (st : SynthState F) (fcol : Col) (rest : List Col)
    (hc : st.const_cols = fcol :: rest)
    (hf : fcol ∈ st.eq_cols) (h0 : Col.advice cfg.advice0 ∈ st.eq_cols) :
    ScalarMulChip.loadConstant cfg c st = Except.ok
      (⟨⟨Col.advice cfg.advice0, st.next_row⟩, some c⟩,
       { st with
         cells := st.cells ++
           [(⟨fcol, st.n_consts⟩, some c),
            (⟨Col.advice cfg.advice0, st.next_row⟩, some c)],
         copies := st.copies ++
           [(⟨fcol, st.n_consts⟩, ⟨Col.advice cfg.advice0, st.next_row⟩)],
         n_consts := st.n_consts + 1,
         next_row := st.next_row + 1,
         regions := st.regions ++ [(st.next_row, 1)] }) := by
  unfold ScalarMulChip.loadConstant assignAdviceFromConstant
  rw [hc]
  simp [hf, h0]

theorem copyAdvice_cases {F : Type} (st : SynthState F) (src : Number F)
    (col start off : Nat) :
    (∃ e, copyAdvice st src col start off = Except.error e) ∨
    copyAdvice st src col start off = Except.ok
      (⟨⟨Col.advice col, start + off⟩, src.val⟩,
       { st with cells := st.cells ++ [(⟨Col.advice col, start + off⟩, src.val)],
                 copies := st.copies ++ [(src.cell, ⟨Col.advice col, start + off⟩)] }) := by
  unfold copyAdvice
  split_ifs <;> simp

theorem copyAdvice_ok_frame {F : Type} {st : SynthState F} {src : Number F}
    {col start off : Nat} {n : Number F} {st1 : SynthState F}
    (h : copyAdvice st src col start off = Except.ok (n, st1)) :
    st1.sel_on = st.sel_on ∧ st1.next_row = st.next_row := by
  rcases copyAdvice_cases st src col start off with ⟨e, he⟩ | hok
  · rw [he] at h; exact Except.noConfusion h
  · rw [hok] at h
    cases h
    exact ⟨rfl, rfl⟩

theorem loadConstant_ok_frame {F : Type} {cfg : ScalarMulConfig} {c : F}
    {st : SynthState F} {n : Number F} {st1 : SynthState F}
    (h : ScalarMulChip.loadConstant cfg c st = Except.ok (n, st1)) :
    st1.sel_on = st.sel_on := by
  unfold ScalarMulChip.loadConstant assignAdviceFromConstant at h
  rcases hc : st.const_cols with _ | ⟨fcol, rest⟩ <;> rw [hc] at h
  · exact Except.noConfusion h
  · simp only at h
    split_ifs at h
    cases h
    rfl

theorem exposePublic_ok_frame {F : Type} {cfg : ScalarMulConfig}
    {num : Number F} {row : Nat} {st : SynthState F} {u : Unit}
    {st1 : SynthState F}
    (h : ScalarMulChip.exposePublic cfg num row st = Except.ok (u, st1)) :
    st1.sel_on = st.sel_on := by
  unfold ScalarMulChip.exposePublic constrainInstance at h
  split_ifs at h
  cases h
  rfl

theorem mul_ok_sel {F : Type} [Mul F] {cfg : ScalarMulConfig} {a b : Number F}
    {st : SynthState F} {n : Number F} {st1 : SynthState F}
    (h : ScalarMulChip.mul cfg a b st = Except.ok (n, st1)) :
    st1.sel_on = st.sel_on ++ [(cfg.s_mul, st.next_row)] := by
  by_cases ha : a.cell.col ∈ st.eq_cols
  · by_cases h0 : Col.advice cfg.advice0 ∈ st.eq_cols
    · by_cases hb : b.cell.col ∈ st.eq_cols
      · by_cases h1 : Col.advice cfg.advice1 ∈ st.eq_cols
        · rw [mul_ok cfg a b st ha h0 hb h1] at h
          cases h
          rfl
        · simp [ScalarMulChip.mul, enableSelector, copyAdvice, assignAdvice,
            ha, h0, hb, h1] at h
      · simp [ScalarMulChip.mul, enableSelector, copyAdvice, assignAdvice,
          ha, h0, hb] at h
    · simp [ScalarMulChip.mul, enableSelector, copyAdvice, assignAdvice,
        ha, h0] at h
  · simp [ScalarMulChip.mul, enableSelector, copyAdvice, assignAdvice, ha] at h

/-! ## The two benchmark circuits, run end to end -/

theorem benchConfigure_eq (F : Type) :
    benchConfigure F = (sampleCfg, benchCS F) := rfl

theorem nnRun_eq (F : Type) [Mul F] (av bv : Option F) :
    nnRun F av bv = (benchCS F, Except.ok (nnFinalState F av bv)) := rfl

theorem scalarRun_eq (F : Type) [Mul F] (av bv : Option F) :
    scalarRun F av bv = (benchCS F, Except.ok (scalarFinalState F av bv)) := rfl

/-! ## Acceptance of the synthesized circuits -/

theorem nn_accepts_iff (F : Type) [CommRing F] (pub : Nat → F) :
    accepts (benchCS F) (nnFinalState F (some 2) (some 3)) pub ↔ pub 0 = 2 * 2 := by
  constructor
  · rintro ⟨-, hc⟩
    have h := hc (⟨Col.advice 0, 3⟩, ⟨Col.inst 0, 0⟩) (by simp [nnFinalState])
    have h1 : cellVal (nnFinalState F (some 2) (some 3)) pub ⟨Col.advice 0, 3⟩
        = some ((2 : F) * 2) := rfl
    have h2 : cellVal (nnFinalState F (some 2) (some 3)) pub ⟨Col.inst 0, 0⟩
        = some (pub 0) := rfl
    rw [h1, h2] at h
    exact (Option.some.inj h).symm
  · intro hp
    constructor
    · intro r g hg e he
      simp only [benchCS, List.mem_singleton] at hg
      subst hg
      simp only [mulGatePolys, List.mem_singleton] at he
      subst he
      by_cases hr : r = 2
      · subst hr
        have e1 : advGrid (nnFinalState F (some 2) (some 3)) 0 2 = 2 := rfl
        have e2 : advGrid (nnFinalState F (some 2) (some 3)) 1 2 = 2 := rfl
        have e3 : advGrid (nnFinalState F (some 2) (some 3)) 0 3 = 2 * 2 := rfl
        have es : selGrid (nnFinalState F (some 2) (some 3)) 0 2 = 1 := rfl
        simp [Expr.eval, Rotation.cur, Rotation.next, e1, e2, e3, es]
      · have es : selGrid (nnFinalState F (some 2) (some 3)) 0 r = 0 := by
          simp [selGrid, nnFinalState, hr]
        simp [Expr.eval, es]
    · intro p hpp
      simp only [nnFinalState, List.mem_cons, List.mem_singleton,
        List.not_mem_nil, or_false] at hpp
      rcases hpp with rfl | rfl | rfl
      · rfl
      · rfl
      · show some ((2 : F) * 2) = some (pub 0)
        rw [hp]

theorem scalar_accepts_iff (F : Type) [CommRing F] (pub : Nat → F) :
    accepts (benchCS F) (scalarFinalState F (some 2) (some 3)) pub ↔
      pub 0 = (2 * 2) * (3 * 3) := by
  constructor
  · rintro ⟨-, hc⟩
    have h := hc (⟨Col.advice 0, 7⟩, ⟨Col.inst 0, 0⟩) (by simp [scalarFinalState])
    have h1 : cellVal (scalarFinalState F (some 2) (some 3)) pub ⟨Col.advice 0, 7⟩
        = some (((2 : F) * 2) * (3 * 3)) := rfl
    have h2 : cellVal (scalarFinalState F (some 2) (some 3)) pub ⟨Col.inst 0, 0⟩
        = some (pub 0) := rfl
    rw [h1, h2] at h
    exact (Option.some.inj h).symm
  · intro hp
    constructor
    · intro r g hg e he
      simp only [benchCS, List.mem_singleton] at hg
      subst hg
      simp only [mulGatePolys, List.mem_singleton] at he
      subst he
      by_cases hr2 : r = 2
      · subst hr2
        have e1 : advGrid (scalarFinalState F (some 2) (some 3)) 0 2 = 2 := rfl
        have e2 : advGrid (scalarFinalState F (some 2) (some 3)) 1 2 = 2 := rfl
        have e3 : advGrid (scalarFinalState F (some 2) (some 3)) 0 3 = 2 * 2 := rfl
        have es : selGrid (scalarFinalState F (some 2) (some 3)) 0 2 = 1 := rfl
        simp [Expr.eval, Rotation.cur, Rotation.next, e1, e2, e3, es]
      by_cases hr4 : r = 4
      · subst hr4
        have e1 : advGrid (scalarFinalState F (some 2) (some 3)) 0 4 = 3 := rfl
        have e2 : advGrid (scalarFinalState F (some 2) (some 3)) 1 4 = 3 := rfl
        have e3 : advGrid (scalarFinalState F (some 2) (some 3)) 0 5 = 3 * 3 := rfl
        have es : selGrid (scalarFinalState F (some 2) (some 3)) 0 4 = 1 := rfl
        simp [Expr.eval, Rotation.cur, Rotation.next, e1, e2, e3, es]
      by_cases hr6 : r = 6
      · subst hr6
        have e1 : advGrid (scalarFinalState F (some 2) (some 3)) 0 6 = 2 * 2 := rfl
        have e2 : advGrid (scalarFinalState F (some 2) (some 3)) 1 6 = 3 * 3 := rfl
        have e3 : advGrid (scalarFinalState F (some 2) (some 3)) 0 7
            = (2 * 2) * (3 * 3) := rfl
        have es : selGrid (scalarFinalState F (some 2) (some 3)) 0 6 = 1 := rfl
        simp [Expr.eval, Rotation.cur, Rotation.next, e1, e2, e3, es]
      · have es : selGrid (scalarFinalState F (some 2) (some 3)) 0 r = 0 := by
          simp [selGrid, scalarFinalState, hr2, hr4, hr6]
        simp [Expr.eval, es]
    · intro p hpp
      simp only [scalarFinalState, List.mem_cons, List.mem_singleton,
        List.not_mem_nil, or_false] at hpp
      rcases hpp with rfl | rfl | rfl | rfl | rfl | rfl | rfl
      · rfl
      · rfl
      · rfl
      · rfl
      · rfl
      · rfl
      · show some (((2 : F) * 2) * (3 * 3)) = some (pub 0)
        rw [hp]

theorem vmul_none_left {F : Type} [Mul F] (b : Option F) : vmul none b = none := by
  cases b <;> rfl

theorem vmul_none_right {F : Type} [Mul F] (a : Option F) : vmul a none = none := by
  cases a <;> rfl

/-! ## The claims -/

/-- C1: the gate `ScalarMulConfig::configure` registers under the name
`"mul"` consists of the single polynomial expression
`s_mul * (lhs * rhs - out)`, with `lhs` advice column 0 at the current
row, `rhs` advice column 1 at the current row, and `out` advice column 0
at the next row; at every row where the selector is active (value 1) the
constraint forces `lhs * rhs = out`, and where it is inactive (value 0)
the expression vanishes identically, so the gate places no constraint on
those three cells. -/
theorem mul_gate_spec (F : Type) [CommRing F] (cs : ConstraintSystem F)
    (a0 a1 i k s : Nat) (adv sel : Nat → Nat → F) (r : Nat) :
    ((configureCS F cs a0 a1 i k).gates =
      cs.gates ++ [("mul", mulGatePolys F a0 a1 (configureCfg F cs a0 a1 i k).s_mul)]) ∧
    (mulGatePolys F a0 a1 s =
      [Expr.mulE (Expr.selQ s)
        (Expr.subE (Expr.mulE (Expr.advQ a0 Rotation.cur) (Expr.advQ a1 Rotation.cur))
          (Expr.advQ a0 Rotation.next))]) ∧
    (∀ e ∈ mulGatePolys F a0 a1 s, sel s r = 1 →
      (Expr.eval adv sel r e = 0 ↔ adv a0 r * adv a1 r = adv a0 (r + 1))) ∧
    (∀ e ∈ mulGatePolys F a0 a1 s, sel s r = 0 → Expr.eval adv sel r e = 0) := by
  refine ⟨?_, rfl, ?_, ?_⟩
  · rw [configureCS_gates, configureCfg_s_mul]
  · intro e he hs
    simp only [mulGatePolys, List.mem_singleton] at he
    subst he
    simp [Expr.eval, Rotation.cur, Rotation.next, hs, sub_eq_zero]
  · intro e he hs
    simp only [mulGatePolys, List.mem_singleton] at he
    subst he
    simp [Expr.eval, hs]

/-- C2: for any pair of `Number` handles on equality-enabled columns,
`mul` opens exactly one region spanning two rows, enables the
multiplication selector at region row 0, copy-constrains `a`'s cell into
advice column 0 at region row 0 and `b`'s cell into advice column 1 at
region row 0, assigns the product of the two underlying values to advice
column 0 at region row 1, and returns a `Number` wrapping that output
cell. -/
theorem mul_region_effects (F : Type) [Mul F] (cfg : ScalarMulConfig)
    (a b : Number F) (st : SynthState F)
    (ha : a.cell.col ∈ st.eq_cols) (h0 : Col.advice cfg.advice0 ∈ st.eq_cols)
    (hb : b.cell.col ∈ st.eq_cols) (h1 : Col.advice cfg.advice1 ∈ st.eq_cols) :
    ScalarMulChip.mul cfg a b st = Except.ok
      (⟨⟨Col.advice cfg.advice0, st.next_row + 1⟩, vmul a.val b.val⟩,
       { st with
         sel_on := st.sel_on ++ [(cfg.s_mul, st.next_row)],
         cells := st.cells ++
           [(⟨Col.advice cfg.advice0, st.next_row⟩, a.val),
            (⟨Col.advice cfg.advice1, st.next_row⟩, b.val),
            (⟨Col.advice cfg.advice0, st.next_row + 1⟩, vmul a.val b.val)],
         copies := st.copies ++
           [(a.cell, ⟨Col.advice cfg.advice0, st.next_row⟩),
            (b.cell, ⟨Col.advice cfg.advice1, st.next_row⟩)],
         regions := st.regions ++ [(st.next_row, 2)],
         next_row := st.next_row + 2 }) :=
  mul_ok cfg a b st ha h0 hb h1

/-- Witness for the `mul` region contract at a concrete input. -/
theorem mul_region_effects_witness :
    ∃ out, ScalarMulChip.mul sampleCfg sampleA sampleB sampleSt = Except.ok out :=
  ⟨_, mul_region_effects (ZMod 7) sampleCfg sampleA sampleB sampleSt
    (by decide) (by decide) (by decide) (by decide)⟩

/-- C3 (code bug): `NNMulCircuit` is documented as returning `a*b`, but
its `synthesize` passes `a.clone(), a` to `mul`, so with a = 2 and b = 3
the synthesized circuit binds a*a = 4 to instance row 0: the public input
4 is accepted and the public input 6 = a*b that the specification promises
is rejected. -/
theorem nn_mul_divergence_at_2_3 :
    (nnRun (ZMod 7) (some 2) (some 3)).2
        = Except.ok (nnFinalState (ZMod 7) (some 2) (some 3)) ∧
    accepts (benchCS (ZMod 7)) (nnFinalState (ZMod 7) (some 2) (some 3))
      (fun _ => 4) ∧
    ¬ accepts (benchCS (ZMod 7)) (nnFinalState (ZMod 7) (some 2) (some 3))
      (fun _ => 6) := by
  refine ⟨rfl, ?_, ?_⟩
  · exact (nn_accepts_iff (ZMod 7) (fun _ => 4)).mpr (by decide)
  · intro hacc
    exact absurd ((nn_accepts_iff (ZMod 7) (fun _ => 6)).mp hacc) (by decide)

/-- C4: synthesizing the chained circuit with a = 2 and b = 3 — `aa =
mul(a,a)`, `bb = mul(b,b)`, `c = mul(aa,bb)`, `expose_public(c, 0)` —
binds 36 to instance row 0, and the circuit is satisfied exactly by the
public inputs whose row 0 holds 36. -/
theorem scalar_mul_chain_public_36 (F : Type) [CommRing F] (pub : Nat → F) :
    (scalarRun F (some 2) (some 3)).2
        = Except.ok (scalarFinalState F (some 2) (some 3)) ∧
    (accepts (benchCS F) (scalarFinalState F (some 2) (some 3)) pub ↔
      pub 0 = 36) := by
  refine ⟨rfl, ?_⟩
  have h36 : ((2 : F) * 2) * (3 * 3) = 36 := by norm_num
  rw [scalar_accepts_iff, h36]

/-- C5: `expose_public` records a copy constraint between the number's
cell and the instance column's cell at the given absolute row and returns
unit on success; it fails with an error whenever the instance column was
never equality-enabled; and in both benchmark circuits the only binding
of an internal witness to the instance column is the multiplication
result at absolute row 0. -/
theorem expose_public_contract (F : Type) [Mul F] :
    (∀ (cfg : ScalarMulConfig) (num : Number F) (row : Nat) (st : SynthState F),
      num.cell.col ∈ st.eq_cols → Col.inst cfg.instCol ∈ st.eq_cols →
      ScalarMulChip.exposePublic cfg num row st = Except.ok
        ((), { st with
               copies := st.copies ++ [(num.cell, ⟨Col.inst cfg.instCol, row⟩)] })) ∧
    (∀ (cfg : ScalarMulConfig) (num : Number F) (row : Nat) (st : SynthState F),
      Col.inst cfg.instCol ∉ st.eq_cols →
      ∀ out, ScalarMulChip.exposePublic cfg num row st ≠ Except.ok out) ∧
    (∀ av bv : Option F,
      instBindings (nnFinalState F av bv)
          = [(⟨Col.advice 0, 3⟩, ⟨Col.inst 0, 0⟩)] ∧
      instBindings (scalarFinalState F av bv)
          = [(⟨Col.advice 0, 7⟩, ⟨Col.inst 0, 0⟩)]) := by
  refine ⟨?_, ?_, ?_⟩
  · intro cfg num row st hn hi
    exact exposePublic_ok cfg num row st hn hi
  · intro cfg num row st hi
    exact exposePublic_not_ok cfg num row st hi
  · intro av bv
    exact ⟨rfl, rfl⟩

/-- C6: if either operand of `mul` carries an unknown value, `mul` still
succeeds and returns a `Number` marked unknown, while the region,
selector, copy-constraint and cell structure it creates is identical to
what it creates for operands with known values on the same cells. -/
theorem mul_unknown_propagation (F : Type) [Mul F] (cfg : ScalarMulConfig)
    (st : SynthState F) (a b a2 b2 : Number F)
    (hea : a2.cell = a.cell) (heb : b2.cell = b.cell)
    (ha : a.cell.col ∈ st.eq_cols) (h0 : Col.advice cfg.advice0 ∈ st.eq_cols)
    (hb : b.cell.col ∈ st.eq_cols) (h1 : Col.advice cfg.advice1 ∈ st.eq_cols)
    (hu : a.val = none ∨ b.val = none) :
    ∃ num st1 num2 st2,
      ScalarMulChip.mul cfg a b st = Except.ok (num, st1) ∧
      ScalarMulChip.mul cfg a2 b2 st = Except.ok (num2, st2) ∧
      num.val = none ∧ num.cell = num2.cell ∧
      SynthState.shape st1 = SynthState.shape st2 := by
  have ha2 : a2.cell.col ∈ st.eq_cols := by rw [hea]; exact ha
  have hb2 : b2.cell.col ∈ st.eq_cols := by rw [heb]; exact hb
  refine ⟨_, _, _, _, mul_ok cfg a b st ha h0 hb h1,
    mul_ok cfg a2 b2 st ha2 h0 hb2 h1, ?_, rfl, ?_⟩
  · show vmul a.val b.val = none
    rcases hu with h | h
    · rw [h, vmul_none_left]
    · rw [h, vmul_none_right]
  · simp [SynthState.shape, hea, heb]

/-- Witness for unknown-propagation through `mul` at a concrete input. -/
theorem mul_unknown_propagation_witness :
    ∃ num st1 num2 st2,
      ScalarMulChip.mul sampleCfg sampleU sampleB sampleSt = Except.ok (num, st1) ∧
      ScalarMulChip.mul sampleCfg sampleA sampleB sampleSt = Except.ok (num2, st2) ∧
      num.val = none ∧ num.cell = num2.cell ∧
      SynthState.shape st1 = SynthState.shape st2 :=
  mul_unknown_propagation (ZMod 7) sampleCfg sampleSt sampleU sampleB sampleA sampleB
    rfl rfl (by decide) (by decide) (by decide) (by decide) (Or.inl rfl)

/-- C7: `load_constant` assigns the constant into the first advice column
at row 0 of a fresh one-row region via the assign-from-constant
primitive, which additionally records a copy constraint between the new
cell and the fixed column's cell holding the constant, and returns a
`Number` wrapping the new cell. -/
theorem load_constant_contract (F : Type) (cfg : ScalarMulConfig) (c : F)
    (st : SynthState F) (fcol : Col) (rest : List Col)
    (hc : st.const_cols = fcol :: rest)
    (hf : fcol ∈ st.eq_cols) (h0 : Col.advice cfg.advice0 ∈ st.eq_cols) :
    ScalarMulChip.loadConstant cfg c st = Except.ok
      (⟨⟨Col.advice cfg.advice0, st.next_row⟩, some c⟩,
       { st with
         cells := st.cells ++
           [(⟨fcol, st.n_consts⟩, some c),
            (⟨Col.advice cfg.advice0, st.next_row⟩, some c)],
         copies := st.copies ++
           [(⟨fcol, st.n_consts⟩, ⟨Col.advice cfg.advice0, st.next_row⟩)],
         n_consts := st.n_consts + 1,
         next_row := st.next_row + 1,
         regions := st.regions ++ [(st.next_row, 1)] }) :=
  loadConstant_ok cfg c st fcol rest hc hf h0

/-- Witness for the `load_constant` contract at a concrete input. -/
theorem load_constant_contract_witness :
    ∃ out, ScalarMulChip.loadConstant sampleCfg (3 : ZMod 7) sampleSt
      = Except.ok out :=
  ⟨_, load_constant_contract (ZMod 7) sampleCfg 3 sampleSt (Col.fixedCol 0) []
    rfl (by decide) (by decide)⟩

/-- C8: `load_private` always succeeds, assigning the value into the
first advice column at row 0 of a fresh one-row region and returning a
`Number` wrapping that cell while enabling no selector; among the four
chip operations, `mul` is the only one that enables a selector — the
other three leave the selector enablements untouched. -/
theorem load_private_and_selector_frame (F : Type) [Mul F] :
    (∀ (cfg : ScalarMulConfig) (v : Option F) (st : SynthState F),
      ScalarMulChip.loadPrivate cfg v st = Except.ok
        (⟨⟨Col.advice cfg.advice0, st.next_row⟩, v⟩,
         { st with
           cells := st.cells ++ [(⟨Col.advice cfg.advice0, st.next_row⟩, v)],
           next_row := st.next_row + 1,
           regions := st.regions ++ [(st.next_row, 1)] })) ∧
    (∀ (cfg : ScalarMulConfig) (v : Option F) (st : SynthState F) num st1,
      ScalarMulChip.loadPrivate cfg v st = Except.ok (num, st1) →
      st1.sel_on = st.sel_on) ∧
    (∀ (cfg : ScalarMulConfig) (c : F) (st : SynthState F) num st1,
      ScalarMulChip.loadConstant cfg c st = Except.ok (num, st1) →
      st1.sel_on = st.sel_on) ∧
    (∀ (cfg : ScalarMulConfig) (num : Number F) (row : Nat) (st : SynthState F) u st1,
      ScalarMulChip.exposePublic cfg num row st = Except.ok (u, st1) →
      st1.sel_on = st.sel_on) ∧
    (∀ (cfg : ScalarMulConfig) (a b : Number F) (st : SynthState F) num st1,
      ScalarMulChip.mul cfg a b st = Except.ok (num, st1) →
      st1.sel_on = st.sel_on ++ [(cfg.s_mul, st.next_row)]) := by
  refine ⟨?_, ?_, ?_, ?_, ?_⟩
  · intro cfg v st
    exact loadPrivate_eq cfg v st
  · intro cfg v st num st1 h
    rw [loadPrivate_eq] at h
    cases h
    rfl
  · intro cfg c st num st1 h
    exact loadConstant_ok_frame h
  · intro cfg num row st u st1 h
    exact exposePublic_ok_frame h
  · intro cfg a b st num st1 h
    exact mul_ok_sel h

/-- C9: `configure` enables equality on the instance column and on both
advice columns and enables constants (with equality) on the fixed column;
consequently, for any chip whose configuration was produced by
`configure` and whose operand handles live on the chip's advice columns,
the equality-capability failure branches of `mul`'s copy steps, of
`expose_public`'s instance binding and of `load_constant`'s constant
binding cannot be taken. -/
theorem configure_capabilities (F : Type) [Mul F] (cs : ConstraintSystem F)
    (a0 a1 i k : Nat) :
    (Col.inst i ∈ (configureCS F cs a0 a1 i k).eq_cols ∧
     Col.advice a0 ∈ (configureCS F cs a0 a1 i k).eq_cols ∧
     Col.advice a1 ∈ (configureCS F cs a0 a1 i k).eq_cols ∧
     Col.fixedCol k ∈ (configureCS F cs a0 a1 i k).eq_cols ∧
     Col.fixedCol k ∈ (configureCS F cs a0 a1 i k).const_cols) ∧
    (∀ st : SynthState F, st.eq_cols = (configureCS F cs a0 a1 i k).eq_cols →
      (∀ a b : Number F,
        (a.cell.col = Col.advice a0 ∨ a.cell.col = Col.advice a1) →
        (b.cell.col = Col.advice a0 ∨ b.cell.col = Col.advice a1) →
        ∃ out, ScalarMulChip.mul (configureCfg F cs a0 a1 i k) a b st
          = Except.ok out) ∧
      (∀ (num : Number F) (row : Nat),
        (num.cell.col = Col.advice a0 ∨ num.cell.col = Col.advice a1) →
        ∃ out, ScalarMulChip.exposePublic (configureCfg F cs a0 a1 i k) num row st
          = Except.ok out) ∧
      (∀ rest : List Col, st.const_cols = Col.fixedCol k :: rest →
        ∀ c : F, ∃ out, ScalarMulChip.loadConstant (configureCfg F cs a0 a1 i k) c st
          = Except.ok out)) := by
  refine ⟨⟨mem_inst_configureCS cs a0 a1 i k, mem_advice0_configureCS cs a0 a1 i k,
    mem_advice1_configureCS cs a0 a1 i k, mem_fixed_eq_configureCS cs a0 a1 i k,
    mem_fixed_const_configureCS cs a0 a1 i k⟩, ?_⟩
  intro st hst
  have hA0 : Col.advice a0 ∈ st.eq_cols := by
    rw [hst]; exact mem_advice0_configureCS cs a0 a1 i k
  have hA1 : Col.advice a1 ∈ st.eq_cols := by
    rw [hst]; exact mem_advice1_configureCS cs a0 a1 i k
  have hI : Col.inst i ∈ st.eq_cols := by
    rw [hst]; exact mem_inst_configureCS cs a0 a1 i k
  have hK : Col.fixedCol k ∈ st.eq_cols := by
    rw [hst]; exact mem_fixed_eq_configureCS cs a0 a1 i k
  refine ⟨?_, ?_, ?_⟩
  · intro a b hac hbc
    have ha : a.cell.col ∈ st.eq_cols := by
      rcases hac with h | h <;> rw [h] <;> assumption
    have hb : b.cell.col ∈ st.eq_cols := by
      rcases hbc with h | h <;> rw [h] <;> assumption
    exact ⟨_, mul_ok (configureCfg F cs a0 a1 i k) a b st ha hA0 hb hA1⟩
  · intro num row hnc
    have hn : num.cell.col ∈ st.eq_cols := by
      rcases hnc with h | h <;> rw [h] <;> assumption
    exact ⟨_, exposePublic_ok (configureCfg F cs a0 a1 i k) num row st hn hI⟩
  · intro rest hrest c
    exact ⟨_, loadConstant_ok (configureCfg F cs a0 a1 i k) c st
      (Col.fixedCol k) rest hrest hK hA0⟩

/-- C10: `enable_equality` is idempotent: flagging a column that is
already equality-enabled is a no-op, never an error — the registry state
after two calls on the same column is identical to the state after one. -/
theorem enable_equality_idempotent (F : Type) (cs : ConstraintSystem F) (c : Col) :
    enableEquality (enableEquality cs c) c = enableEquality cs c := by
  have h : c ∈ (enableEquality cs c).eq_cols := mem_enableEquality_self cs c
  generalize hE : enableEquality cs c = D at h ⊢
  unfold enableEquality
  rw [if_pos h]

end Halo2Benches
